import Mathlib

/-!
Verification development for the traider inventory ledger.

The definitions below are a shallow embedding of the ledger core:
`src/traider/db.py` (schema), `src/traider/repo.py` (movement creation,
batch operations), `src/traider/routes/movements.py` (HTTP entry points)
and `mcp_server.py` (tool-call entry points).

Modelling conventions:
* quantities (`NUMERIC(14,3)` columns, Python `Decimal`) are rationals;
* row ids (`BIGSERIAL`) are naturals drawn from an explicit sequence
  counter; PostgreSQL sequences do not roll back, so the counters
  survive a transaction rollback (`rollbackTo`);
* timestamps (`TIMESTAMPTZ`) are integers (seconds); `now()` is the
  database clock `DB.clock`;
* a connection's uncommitted work is an explicit `DB` value threaded
  through the loop bodies; `commit` publishes it, a rollback returns to
  the last committed state.  In PostgreSQL a statement error aborts the
  open transaction: every later statement fails until rollback, and a
  final `COMMIT` of an aborted transaction acts as `ROLLBACK`.
-/

namespace Traider

/-- A row of `fabrics` (db.py DDL): `fabric_code` is `UNIQUE`. -/
structure Fabric where
  id : Nat
  fabric_code : String
deriving Repr, DecidableEq

/-- A row of `fabric_variants` (db.py DDL): `UNIQUE (fabric_id, color_code)`. -/
structure Variant where
  id : Nat
  fabric_id : Nat
  color_code : String
deriving Repr, DecidableEq

/-- A row of `stock_movements` (db.py DDL, with the migration columns
`roll_count`, `document_id`, `is_cancelled`).  `cancelled_at` is omitted:
no claim under check reads it. -/
structure Movement where
  id : Nat
  variant_id : Nat
  movement_type : String
  delta_qty_m : ℚ
  original_qty : ℚ
  original_uom : String
  roll_count : Option Int
  document_id : Option String
  reason : Option String
  is_cancelled : Bool
  ts : Int
deriving Repr, DecidableEq

/-- A row of `stock_balances` (db.py DDL): one row per variant. -/
structure Balance where
  on_hand_m : ℚ
  on_hand_rolls : ℚ
deriving Repr, DecidableEq

/-- The committed database state (the two ledger tables plus the catalog
tables they reference, and the id sequences / clock). -/
structure DB where
  fabrics : List Fabric
  variants : List Variant
  movements : List Movement
  balances : List (Nat × Balance)
  next_variant_id : Nat
  next_movement_id : Nat
  clock : Int
deriving Repr, DecidableEq

/-- The DDL constraint `CHECK (movement_type IN ('RECEIPT','ISSUE','ADJUST'))`. -/
def validMovementType (t : String) : Bool :=
  t == "RECEIPT" || t == "ISSUE" || t == "ADJUST"

/-- The DDL constraint `CHECK (original_uom IN ('m','roll'))`. -/
def validUom (u : String) : Bool :=
  u == "m" || u == "roll"

/-- The lookup `SELECT id FROM fabric_variants WHERE id = %s` (repo.py:700). -/
def variantExists (db : DB) (vid : Nat) : Bool :=
  db.variants.any (fun v => v.id == vid)

/-- The lookup `SELECT id FROM fabrics WHERE fabric_code = %s`; `fabric_code` is unique. -/
def fabricIdByCode (db : DB) (fc : String) : Option Nat :=
  (db.fabrics.find? (fun f => f.fabric_code == fc)).map Fabric.id

/-- The join `fabric_variants v JOIN fabrics f ON v.fabric_id = f.id WHERE
f.fabric_code = %s AND v.color_code = %s` (repo.py:656-663, 1086-1093). -/
def findVariantByCodes (db : DB) (fc cc : String) : Option Nat :=
  (db.variants.find? (fun v =>
    fabricIdByCode db fc == some v.fabric_id && v.color_code == cc)).map Variant.id

/-- The `COALESCE(%(delta_rolls)s, 0)` of the balance insert (repo.py:734). -/
def rollInit (dr : Option Int) : ℚ :=
  match dr with
  | some r => (r : ℚ)
  | none => 0

/-- The `CASE WHEN %(delta_rolls)s IS NOT NULL THEN on_hand_rolls + delta
ELSE on_hand_rolls END` of the balance update (repo.py:738-742). -/
def rollAdd (cur : ℚ) (dr : Option Int) : ℚ :=
  match dr with
  | some r => cur + (r : ℚ)
  | none => cur

/-- The balance upsert `INSERT ... ON CONFLICT (variant_id) DO UPDATE SET
on_hand_m = on_hand_m + EXCLUDED.on_hand_m, on_hand_rolls = CASE ... END`
(repo.py:731-746; the identical statement appears at repo.py:1145-1160). -/
def upsertBalance (bs : List (Nat × Balance)) (vid : Nat) (dm : ℚ) (dr : Option Int) :
    List (Nat × Balance) :=
  match bs with
  | [] => [(vid, { on_hand_m := dm, on_hand_rolls := rollInit dr })]
  | p :: rest =>
    if p.1 == vid then
      (p.1, { on_hand_m := p.2.on_hand_m + dm,
              on_hand_rolls := rollAdd p.2.on_hand_rolls dr }) :: rest
    else
      p :: upsertBalance rest vid dm dr

/-- Read a variant's balance row, if any. -/
def lookupBalance (bs : List (Nat × Balance)) (vid : Nat) : Option Balance :=
  (bs.find? (fun p => p.1 == vid)).map (fun p => p.2)

/-- The read `COALESCE(sb.on_hand_m, 0)`: a missing balance row reads as zero
(repo.py:785, 1108-1112). -/
def balMOf (bs : List (Nat × Balance)) (vid : Nat) : ℚ :=
  ((lookupBalance bs vid).map Balance.on_hand_m).getD 0

/-- The read `COALESCE(sb.on_hand_rolls, 0)` (repo.py:786). -/
def balROf (bs : List (Nat × Balance)) (vid : Nat) : ℚ :=
  ((lookupBalance bs vid).map Balance.on_hand_rolls).getD 0

def balM (db : DB) (vid : Nat) : ℚ := balMOf db.balances vid

def balRolls (db : DB) (vid : Nat) : ℚ := balROf db.balances vid

/-- The row the movement insert writes (repo.py:705-728, and identically
repo.py:1119-1142): `delta_qty_m` and `original_qty` both take the supplied
quantity, `is_cancelled` defaults to `FALSE`, `ts` to `now()`. -/
def newMovementRow (db : DB) (vid : Nat) (mtype : String) (qty : ℚ) (uom : String)
    (roll_count : Option Int) (document_id reason : Option String) : Movement :=
  { id := db.next_movement_id,
    variant_id := vid,
    movement_type := mtype,
    delta_qty_m := qty,
    original_qty := qty,
    original_uom := uom,
    roll_count := roll_count,
    document_id := document_id,
    reason := reason,
    is_cancelled := false,
    ts := db.clock }

/-- The write of one successful movement: the movement insert together
with the balance upsert. -/
def recordMovement (db : DB) (vid : Nat) (mtype : String) (qty : ℚ) (uom : String)
    (roll_count : Option Int) (document_id reason : Option String) : DB :=
  { db with
    movements := db.movements ++ [newMovementRow db vid mtype qty uom roll_count document_id reason],
    balances := upsertBalance db.balances vid qty roll_count,
    next_movement_id := db.next_movement_id + 1 }

/-- Outcome of `create_movement` (repo.py:673-759): `None` when the variant
is missing, an exception when a `CHECK` constraint rejects the insert (the
whole unit of work is then discarded), or the result dict carrying
`movement_id`, `delta_qty_m` and `on_hand_m_after`. -/
inductive CMOut where
  | notFound
  | dbError
  | ok (movement_id : Nat) (delta_qty_m : ℚ) (on_hand_m_after : ℚ)
deriving Repr, DecidableEq

/-- Function `create_movement` (repo.py:673-759): check the variant exists (else
return `None` with no write), insert the movement row, upsert the balance,
read the balance back, commit. -/
def create_movement (db : DB) (vid : Nat) (mtype : String) (qty : ℚ) (uom : String)
    (roll_count : Option Int) (document_id reason : Option String) : DB × CMOut :=
  if variantExists db vid then
    if validMovementType mtype && validUom uom then
      let db2 := recordMovement db vid mtype qty uom roll_count document_id reason
      (db2, CMOut.ok db.next_movement_id qty (balM db2 vid))
    else
      (db, CMOut.dbError)
  else
    (db, CMOut.notFound)

/-- Function `create_movement_by_codes` (repo.py:639-670): resolve the variant by
fabric and color code, then delegate to `create_movement`. -/
def create_movement_by_codes (db : DB) (fc cc mtype : String) (qty : ℚ) (uom : String)
    (roll_count : Option Int) (document_id reason : Option String) : DB × CMOut :=
  match findVariantByCodes db fc cc with
  | none => (db, CMOut.notFound)
  | some vid => create_movement db vid mtype qty uom roll_count document_id reason

/-- One entry of the `items` list passed to `create_movements_batch`
(repo.py:1054-1185); the dict keys read at repo.py:1078-1082. -/
structure BatchEntry where
  fabric_code : String
  color_code : String
  qty : ℚ
  uom : String
  roll_count : Option Int
deriving Repr, DecidableEq

/-- One element of the `processed` list (repo.py:1166-1173). -/
structure ProcessedItem where
  fabric_code : String
  color_code : String
  qty : ℚ
  previous_balance : ℚ
  new_balance : ℚ
  movement_id : Nat
deriving Repr, DecidableEq

/-- One element of the `failed` list (repo.py:1096-1101, 1176-1181). -/
structure FailedItem where
  fabric_code : String
  color_code : String
  qty : ℚ
  error : String
deriving Repr, DecidableEq

/-- A `failed` record for one batch entry (repo.py:1096-1101, 1176-1181):
the entry's identifying fields plus an error message. -/
def batchFailItem (e : BatchEntry) (msg : String) : FailedItem :=
  { fabric_code := e.fabric_code, color_code := e.color_code, qty := e.qty, error := msg }

/-- A `processed` record for one batch entry (repo.py:1166-1173). -/
def batchProcItem (e : BatchEntry) (prev newB : ℚ) (mid : Nat) : ProcessedItem :=
  { fabric_code := e.fabric_code, color_code := e.color_code, qty := e.qty,
    previous_balance := prev, new_balance := newB, movement_id := mid }

/-- State of one `create_movements_batch` call: the connection's
uncommitted view, whether the open transaction has been aborted by a
statement error, and the two Python result lists. -/
structure BatchOut where
  dbOut : DB
  aborted : Bool
  processed : List ProcessedItem
  failed : List FailedItem
deriving Repr, DecidableEq

/-- After a rollback the committed rows return, but `BIGSERIAL` sequence
values consumed by the rolled-back inserts are not reissued. -/
def rollbackTo (orig work : DB) : DB :=
  { orig with
    next_variant_id := work.next_variant_id,
    next_movement_id := work.next_movement_id }

/-- The per-entry loop of `create_movements_batch` (repo.py:1077-1181),
executed on one connection inside a single transaction.  Per entry:
look up the variant (a miss is recorded in `failed` without any error
being raised); read the previous balance with `COALESCE`; insert the
movement row — a `CHECK` violation (invalid `movement_type` or `uom`)
raises, is caught by the `except` clause, and leaves the transaction
aborted; upsert the balance; read the new balance.  Once the transaction
is aborted every later statement raises `InFailedSqlTransaction`, which
the same `except` clause records in `failed`. -/
def batchRun (mtype : String) (document_id reason : Option String) :
    List BatchEntry → DB → Bool → BatchOut
  | [], work, aborted => { dbOut := work, aborted := aborted, processed := [], failed := [] }
  | e :: rest, work, aborted =>
    if aborted then
      let r := batchRun mtype document_id reason rest work true
      { r with failed := batchFailItem e "current transaction is aborted" :: r.failed }
    else
      match findVariantByCodes work e.fabric_code e.color_code with
      | none =>
        let r := batchRun mtype document_id reason rest work false
        { r with failed := batchFailItem e "variant not found for fabric" :: r.failed }
      | some vid =>
        if validMovementType mtype && validUom e.uom then
          let work2 := recordMovement work vid mtype e.qty e.uom e.roll_count document_id reason
          let r := batchRun mtype document_id reason rest work2 false
          { r with processed :=
              batchProcItem e (balM work vid) (balM work2 vid) work.next_movement_id
                :: r.processed }
        else
          let r := batchRun mtype document_id reason rest work true
          { r with failed := batchFailItem e "check constraint violated" :: r.failed }

/-- Function `create_movements_batch` (repo.py:1054-1185): run the loop on one
connection, then `conn.commit()`.  There is no per-entry savepoint: the
final `COMMIT` of a transaction an earlier statement error left aborted
acts as `ROLLBACK`, so in that case the committed state is the original
one (sequence values excepted). -/
def create_movements_batch (db : DB) (items : List BatchEntry) (mtype : String)
    (document_id reason : Option String) : DB × List ProcessedItem × List FailedItem :=
  let r := batchRun mtype document_id reason items db false
  (if r.aborted then rollbackTo db r.dbOut else r.dbOut, r.processed, r.failed)

/-- One entry of the `variants` list of `create_variants_batch`
(repo.py:985-1051); `finish` defaults to "Standard" at repo.py:1014. -/
structure VariantSpec where
  color_code : String
  finish : String
deriving Repr, DecidableEq

/-- One element of the `created` list (repo.py:1034-1038). -/
structure CreatedVariant where
  fabric_code : String
  color_code : String
  finish : String
deriving Repr, DecidableEq

/-- One element of the `failed` list (repo.py:1042-1045). -/
structure FailedVariant where
  color_code : String
  error : String
deriving Repr, DecidableEq

/-- The `UNIQUE (fabric_id, color_code)` conflict test for an insert into
`fabric_variants`, evaluated against the connection's uncommitted view. -/
def variantDup (db : DB) (fid : Nat) (cc : String) : Bool :=
  db.variants.any (fun v => v.fabric_id == fid && v.color_code == cc)

/-- The insert `INSERT INTO fabric_variants` (repo.py:1019-1032). -/
def insertVariant (db : DB) (fid : Nat) (cc : String) : DB :=
  { db with
    variants := db.variants ++ [{ id := db.next_variant_id, fabric_id := fid, color_code := cc }],
    next_variant_id := db.next_variant_id + 1 }

/-- The per-entry loop of `create_variants_batch` (repo.py:1012-1047).
On a unique violation the `except` clause calls `conn.rollback()` — which
rolls the connection back to the last *committed* state, i.e. discards
every insert made earlier in this same call — records the entry in
`failed`, and continues in a fresh transaction.  The Python `created`
list is not rolled back with the database. -/
def variantsLoop (orig : DB) (fid : Nat) (fc : String) :
    List VariantSpec → DB → DB × List CreatedVariant × List FailedVariant
  | [], work => (work, [], [])
  | s :: rest, work =>
    if variantDup work fid s.color_code then
      let r := variantsLoop orig fid fc rest (rollbackTo orig work)
      (r.1, r.2.1,
        { color_code := s.color_code, error := "variant with this color_code already exists" } :: r.2.2)
    else
      let r := variantsLoop orig fid fc rest (insertVariant work fid s.color_code)
      (r.1, { fabric_code := fc, color_code := s.color_code, finish := s.finish } :: r.2.1, r.2.2)

/-- Function `create_variants_batch` (repo.py:985-1051): resolve the fabric
(`(None, [], [])` when absent), run the loop, `conn.commit()`. -/
def create_variants_batch (db : DB) (fabric_code : String) (variants : List VariantSpec) :
    Option Nat × DB × List CreatedVariant × List FailedVariant :=
  match db.fabrics.find? (fun f => f.fabric_code == fabric_code) with
  | none => (none, db, [], [])
  | some fab =>
    let r := variantsLoop db fab.id fabric_code variants db
    (some fab.id, r.1, r.2.1, r.2.2)

/-- The lookup `SELECT ... FROM stock_movements WHERE id = %s`. -/
def findMovement (db : DB) (mid : Nat) : Option Movement :=
  db.movements.find? (fun m => m.id == mid)

/-- The `is_cancelled := true` flag transition of one movement row. -/
def flipCancelled (mid : Nat) (m : Movement) : Movement :=
  if m.id == mid then { m with is_cancelled := true } else m

/-- Outcome of `cancel_movement`: `None` (route maps it to 404), a
`ValueError` for an already cancelled movement (route maps it to 400), or
the result carrying the reversed quantity and the resulting balance. -/
inductive CancelOut where
  | notFound
  | alreadyCancelled
  | ok (reversed_qty : ℚ) (on_hand_m_after : ℚ)
deriving Repr, DecidableEq

/-- Modelled from the spec: `repo.cancel_movement` is not among the source
files (only its caller `cancel_movement_route`, routes/movements.py:67-87,
is), so its body follows spec section 4.4.  Look the movement up
(`NotFound` when absent); fail with `AlreadyCancelled` and no state change
when `is_cancelled` is already set; otherwise, atomically with the
`false → true` flag transition, reverse the movement's contribution by
applying the negation of `delta_qty_m` (and of `roll_count` when non-null)
to the balance row through the same increment discipline as section 4.1,
inserting no new movement row, and return the reversed quantity and the
resulting balance.  Where the cancellation `reason` is stored is not
constrained by the claims under check, so it is left unrecorded. -/
def cancel_movement (db : DB) (movement_id : Nat) (reason : Option String) : DB × CancelOut :=
  match findMovement db movement_id with
  | none => (db, CancelOut.notFound)
  | some m =>
    if m.is_cancelled then
      (db, CancelOut.alreadyCancelled)
    else
      let db2 : DB := { db with
        movements := db.movements.map (flipCancelled movement_id),
        balances := upsertBalance db.balances m.variant_id (-(m.delta_qty_m))
          (m.roll_count.map (fun r => -r)) }
      (db2, CancelOut.ok (-(m.delta_qty_m)) (balM db2 m.variant_id))

/-- The filter arguments of the movement-history query, mirroring the
query parameters of `list_movements` (routes/movements.py:27-41). -/
structure SearchFilters where
  fabric_code : Option String
  color_code : Option String
  movement_type : Option String
  date_from : Option Int
  date_to : Option Int
  min_qty : Option ℚ
  max_qty : Option ℚ
  document_id : Option String
  include_cancelled : Bool
deriving Repr, DecidableEq

/-- The defaults of `list_movements` (routes/movements.py:27-41): every
filter absent and `include_cancelled = False`. -/
def defaultFilters : SearchFilters :=
  { fabric_code := none, color_code := none, movement_type := none,
    date_from := none, date_to := none, min_qty := none, max_qty := none,
    document_id := none, include_cancelled := false }

def oneDay : Int := 86400

/-- The fabric code of a movement's variant, through the catalog join. -/
def variantFabricCode (db : DB) (vid : Nat) : Option String :=
  (db.variants.find? (fun v => v.id == vid)).bind (fun v =>
    (db.fabrics.find? (fun f => f.id == v.fabric_id)).map Fabric.fabric_code)

def variantColorCode (db : DB) (vid : Nat) : Option String :=
  (db.variants.find? (fun v => v.id == vid)).map Variant.color_code

/-- Modelled from the spec: `repo.search_movements` is not among the source
files (only its caller `list_movements`, routes/movements.py:26-64, is), so
this predicate follows spec section 4.5: all filters optional and
intersected with AND; exact-match catalog identifiers; cancelled movements
excluded unless `include_cancelled`; minimum/maximum *absolute* quantity;
and a date range with inclusive lower bound where `date_to` covers the
whole day it names, i.e. a `[day, day]` filter selects `[day, day+1)`
(spec section 8, Scenario D; the route documents `date_to` as "movements
on or before this date"). -/
def matchesFilters (db : DB) (f : SearchFilters) (m : Movement) : Bool :=
  (f.include_cancelled || !m.is_cancelled) &&
  (match f.fabric_code with
   | some fc => variantFabricCode db m.variant_id == some fc
   | none => true) &&
  (match f.color_code with
   | some cc => variantColorCode db m.variant_id == some cc
   | none => true) &&
  (match f.movement_type with
   | some t => m.movement_type == t
   | none => true) &&
  (match f.date_from with
   | some d => decide (d ≤ m.ts)
   | none => true) &&
  (match f.date_to with
   | some d => decide (m.ts < d + oneDay)
   | none => true) &&
  (match f.min_qty with
   | some q => decide (q ≤ |m.delta_qty_m|)
   | none => true) &&
  (match f.max_qty with
   | some q => decide (|m.delta_qty_m| ≤ q)
   | none => true) &&
  (match f.document_id with
   | some d => m.document_id == some d
   | none => true)

/-- The rows selected by the history query, before pagination. -/
def filterMovements (db : DB) (f : SearchFilters) : List Movement :=
  db.movements.filter (matchesFilters db f)

/-- Modelled from the spec (section 4.5): a page of matching movements plus
the total matching count.  The result ordering (sort field/direction) is
not constrained by the claims under check and is left as ledger order. -/
def search_movements (db : DB) (f : SearchFilters) (limit offset : Nat) :
    List Movement × Nat :=
  (((filterMovements db f).drop offset).take limit, (filterMovements db f).length)

/-- The `/movements/issue` route (routes/movements.py:115-134): the caller
negates, `qty=-abs(movement.qty)` and `roll_count=-abs(...)` when
non-null, before delegating with `movement_type="ISSUE"`. -/
def issue (db : DB) (fc cc : String) (qty : ℚ) (uom : String) (roll_count : Option Int)
    (document_id reason : Option String) : DB × CMOut :=
  create_movement_by_codes db fc cc "ISSUE" (-(|qty|)) uom
    (roll_count.map (fun r => -(|r|))) document_id reason

/-- The `/movements/issue/batch` route (routes/movements.py:213-248):
every item's `qty` becomes `-abs(qty)` and its `roll_count` becomes
`-abs(roll_count)` when non-null, then `create_movements_batch` runs with
`movement_type="ISSUE"`. -/
def issue_batch (db : DB) (items : List BatchEntry) (document_id reason : Option String) :
    DB × List ProcessedItem × List FailedItem :=
  create_movements_batch db
    (items.map (fun i => { i with qty := -(|i.qty|), roll_count := i.roll_count.map (fun r => -(|r|)) }))
    "ISSUE" document_id reason

/-- The MCP `issue_stock` tool (mcp_server.py:269-286): `qty=-abs(args.qty)`
with `movement_type="ISSUE"`; `MovementInput` (mcp_server.py:66-70) has no
`roll_count` field, so none is ever passed. -/
def issue_stock (db : DB) (vid : Nat) (qty : ℚ) (uom : String) (reason : Option String) :
    DB × CMOut :=
  create_movement db vid "ISSUE" (-(|qty|)) uom none none reason

/-- An operation of the write interface the balance invariant is stated
over (claim C1): a single `create_movement` or one `create_movements_batch`
call. -/
inductive Op where
  | mv (vid : Nat) (mtype : String) (qty : ℚ) (uom : String) (roll_count : Option Int)
      (document_id reason : Option String)
  | mvBatch (items : List BatchEntry) (mtype : String) (document_id reason : Option String)

/-- The committed state after one operation. -/
def applyOp (db : DB) : Op → DB
  | Op.mv vid mtype qty uom rc doc rs => (create_movement db vid mtype qty uom rc doc rs).1
  | Op.mvBatch items mtype doc rs => (create_movements_batch db items mtype doc rs).1

def applyOps (db : DB) : List Op → DB
  | [] => db
  | op :: rest => applyOps (applyOp db op) rest

/-- Sum of `delta_qty_m` over a variant's non-cancelled movements. -/
def sumDeltas (ms : List Movement) (vid : Nat) : ℚ :=
  ((ms.filter (fun m => m.variant_id == vid && !m.is_cancelled)).map Movement.delta_qty_m).sum

/-- The ledger/balance invariant: every variant's stored `on_hand_m` (a
missing row reading as zero) equals the sum of `delta_qty_m` over its
non-cancelled movements. -/
def invariantM (db : DB) : Prop :=
  ∀ vid, balM db vid = sumDeltas db.movements vid

/-- Sequence freshness (`BIGSERIAL`): every stored movement id is below the sequence
value the next insert will take. -/
def movementsFresh (db : DB) : Bool :=
  db.movements.all (fun m => m.id < db.next_movement_id)

/-! ### Balance upsert lemmas -/

theorem lookupBalance_upsert_self (bs : List (Nat × Balance)) (vid : Nat) (dm : ℚ) (dr : Option Int) :
    lookupBalance (upsertBalance bs vid dm dr) vid =
      match lookupBalance bs vid with
      | none => some { on_hand_m := dm, on_hand_rolls := rollInit dr }
      | some b => some { on_hand_m := b.on_hand_m + dm, on_hand_rolls := rollAdd b.on_hand_rolls dr } := by
  induction bs with
  | nil => simp [upsertBalance, lookupBalance]
  | cons p rest ih =>
    rcases p with ⟨k, b⟩
    by_cases h : k = vid
    · subst h
      simp [upsertBalance, lookupBalance]
    · have hb : (k == vid) = false := by simp [h]
      simp only [upsertBalance, hb, if_false, lookupBalance, List.find?_cons_of_neg, hb,
        Bool.false_eq_true, not_false_iff] at ih ⊢
      simpa [lookupBalance] using ih

theorem lookupBalance_upsert_ne (bs : List (Nat × Balance)) (vid v : Nat) (dm : ℚ)
    (dr : Option Int) (h : v ≠ vid) :
    lookupBalance (upsertBalance bs vid dm dr) v = lookupBalance bs v := by
  induction bs with
  | nil =>
    have hb : (vid == v) = false := by simp [Ne.symm h]
    simp [upsertBalance, lookupBalance, hb]
  | cons p rest ih =>
    rcases p with ⟨k, b⟩
    by_cases hk : k = vid
    · subst hk
      have hb : (k == v) = false := by simp [Ne.symm h]
      simp [upsertBalance, lookupBalance, hb]
    · have hb : (k == vid) = false := by simp [hk]
      by_cases hkv : k = v
      · subst hkv
        simp [upsertBalance, lookupBalance, hb]
      · have hb2 : (k == v) = false := by simp [hkv]
        simp only [upsertBalance, hb, if_false, lookupBalance, List.find?_cons_of_neg,
          hb2, Bool.false_eq_true, not_false_iff] at ih ⊢
        simpa [lookupBalance] using ih

theorem balMOf_upsert_self (bs : List (Nat × Balance)) (vid : Nat) (dm : ℚ) (dr : Option Int) :
    balMOf (upsertBalance bs vid dm dr) vid = balMOf bs vid + dm := by
  unfold balMOf
  rw [lookupBalance_upsert_self]
  cases lookupBalance bs vid with
  | none => simp
  | some b => simp

theorem balROf_upsert_self (bs : List (Nat × Balance)) (vid : Nat) (dm : ℚ) (dr : Option Int) :
    balROf (upsertBalance bs vid dm dr) vid = rollAdd (balROf bs vid) dr := by
  unfold balROf
  rw [lookupBalance_upsert_self]
  cases lookupBalance bs vid with
  | none => cases dr <;> simp [rollInit, rollAdd]
  | some b => simp

theorem balMOf_upsert_ne (bs : List (Nat × Balance)) (vid v : Nat) (dm : ℚ) (dr : Option Int)
    (h : v ≠ vid) : balMOf (upsertBalance bs vid dm dr) v = balMOf bs v := by
  unfold balMOf
  rw [lookupBalance_upsert_ne bs vid v dm dr h]

theorem balROf_upsert_ne (bs : List (Nat × Balance)) (vid v : Nat) (dm : ℚ) (dr : Option Int)
    (h : v ≠ vid) : balROf (upsertBalance bs vid dm dr) v = balROf bs v := by
  unfold balROf
  rw [lookupBalance_upsert_ne bs vid v dm dr h]

theorem rollAdd_nonpos (x : ℚ) (dr : Option Int) (h : ∀ r, dr = some r → r ≤ 0) :
    rollAdd x dr ≤ x := by
  cases dr with
  | none => simp [rollAdd]
  | some r =>
    have hr : (r : ℚ) ≤ 0 := by exact_mod_cast h r rfl
    simp only [rollAdd]
    linarith

theorem rollAdd_map_neg (x : ℚ) (dr : Option Int) :
    rollAdd (rollAdd x dr) (dr.map (fun r => -r)) = x := by
  cases dr with
  | none => simp [rollAdd]
  | some r => simp [rollAdd, Option.map]

/-! ### Effect of one movement write on the balances and the ledger sum -/

theorem balM_record_self (db : DB) (vid : Nat) (mtype : String) (qty : ℚ) (uom : String)
    (rc : Option Int) (doc rs : Option String) :
    balM (recordMovement db vid mtype qty uom rc doc rs) vid = balM db vid + qty :=
  balMOf_upsert_self db.balances vid qty rc

theorem balM_record_ne (db : DB) (vid v : Nat) (mtype : String) (qty : ℚ) (uom : String)
    (rc : Option Int) (doc rs : Option String) (h : v ≠ vid) :
    balM (recordMovement db vid mtype qty uom rc doc rs) v = balM db v :=
  balMOf_upsert_ne db.balances vid v qty rc h

theorem balRolls_record_self (db : DB) (vid : Nat) (mtype : String) (qty : ℚ) (uom : String)
    (rc : Option Int) (doc rs : Option String) :
    balRolls (recordMovement db vid mtype qty uom rc doc rs) vid = rollAdd (balRolls db vid) rc :=
  balROf_upsert_self db.balances vid qty rc

theorem balRolls_record_ne (db : DB) (vid v : Nat) (mtype : String) (qty : ℚ) (uom : String)
    (rc : Option Int) (doc rs : Option String) (h : v ≠ vid) :
    balRolls (recordMovement db vid mtype qty uom rc doc rs) v = balRolls db v :=
  balROf_upsert_ne db.balances vid v qty rc h

theorem sumDeltas_append_one (ms : List Movement) (m : Movement) (vid : Nat) :
    sumDeltas (ms ++ [m]) vid =
      sumDeltas ms vid +
        (if (m.variant_id == vid && !m.is_cancelled) = true then m.delta_qty_m else 0) := by
  unfold sumDeltas
  rw [List.filter_append, List.map_append, List.sum_append]
  by_cases h : (m.variant_id == vid && !m.is_cancelled) = true
  · simp [List.filter_cons, h]
  · simp [List.filter_cons, h]

theorem invariantM_record (db : DB) (vid : Nat) (mtype : String) (qty : ℚ) (uom : String)
    (rc : Option Int) (doc rs : Option String) (h : invariantM db) :
    invariantM (recordMovement db vid mtype qty uom rc doc rs) := by
  intro v
  have hmov : (recordMovement db vid mtype qty uom rc doc rs).movements
      = db.movements ++ [newMovementRow db vid mtype qty uom rc doc rs] := rfl
  rw [hmov, sumDeltas_append_one]
  by_cases hv : v = vid
  · subst hv
    rw [balM_record_self db v mtype qty uom rc doc rs, h v]
    simp [newMovementRow]
  · rw [balM_record_ne db vid v mtype qty uom rc doc rs hv, h v]
    have hne : (vid == v) = false := by simp [Ne.symm hv]
    simp [newMovementRow, hne]

/-! ### Shape of a successful `create_movement` -/

theorem create_movement_ok_elim (db : DB) (vid : Nat) (mtype : String) (qty : ℚ) (uom : String)
    (rc : Option Int) (doc rs : Option String) (db2 : DB) (mid : Nat) (d a : ℚ)
    (h : create_movement db vid mtype qty uom rc doc rs = (db2, CMOut.ok mid d a)) :
    db2 = recordMovement db vid mtype qty uom rc doc rs ∧
      mid = db.next_movement_id ∧ d = qty ∧ a = balM db2 vid ∧
      variantExists db vid = true := by
  by_cases h1 : variantExists db vid
  · by_cases h2 : (validMovementType mtype && validUom uom) = true
    · rw [create_movement, if_pos h1, if_pos h2] at h
      simp only [Prod.mk.injEq, CMOut.ok.injEq] at h
      obtain ⟨hdb, hmid, hd, ha⟩ := h
      subst hdb
      exact ⟨rfl, hmid.symm, hd.symm, ha.symm, h1⟩
    · rw [create_movement, if_pos h1, if_neg h2] at h
      simp only [Prod.mk.injEq] at h
      exact absurd h.2 (by simp)
  · rw [create_movement, if_neg h1] at h
    simp only [Prod.mk.injEq] at h
    exact absurd h.2 (by simp)

theorem invariantM_create (db : DB) (vid : Nat) (mtype : String) (qty : ℚ) (uom : String)
    (rc : Option Int) (doc rs : Option String) (h : invariantM db) :
    invariantM (create_movement db vid mtype qty uom rc doc rs).1 := by
  rw [create_movement]
  by_cases h1 : variantExists db vid
  · by_cases h2 : (validMovementType mtype && validUom uom) = true
    · rw [if_pos h1, if_pos h2]
      exact invariantM_record db vid mtype qty uom rc doc rs h
    · rw [if_pos h1, if_neg h2]
      exact h
  · rw [if_neg h1]
    exact h

theorem invariantM_rollbackTo (orig work : DB) (h : invariantM orig) :
    invariantM (rollbackTo orig work) :=
  fun v => h v

theorem batchRun_inv (mtype : String) (doc rs : Option String) (items : List BatchEntry) :
    ∀ (work : DB) (ab : Bool), invariantM work →
      invariantM (batchRun mtype doc rs items work ab).dbOut := by
  induction items with
  | nil => intro work ab h; exact h
  | cons e rest ih =>
    intro work ab h
    rw [batchRun]
    by_cases hab : ab = true
    · subst hab
      simp only [if_pos rfl]
      exact ih work true h
    · have hab' : ab = false := by revert hab; cases ab <;> simp
      subst hab'
      simp only [Bool.false_eq_true, if_false]
      cases hfv : findVariantByCodes work e.fabric_code e.color_code with
      | none => exact ih work false h
      | some vid =>
        by_cases hck : (validMovementType mtype && validUom e.uom) = true
        · simp only [if_pos hck]
          exact ih (recordMovement work vid mtype e.qty e.uom e.roll_count doc rs) false
            (invariantM_record work vid mtype e.qty e.uom e.roll_count doc rs h)
        · simp only [if_neg hck]
          exact ih work true h

theorem invariantM_batch (db : DB) (items : List BatchEntry) (mtype : String)
    (doc rs : Option String) (h : invariantM db) :
    invariantM (create_movements_batch db items mtype doc rs).1 := by
  rw [create_movements_batch]
  by_cases ha : (batchRun mtype doc rs items db false).aborted = true
  · simp only [ha, if_pos rfl]
    exact invariantM_rollbackTo db _ h
  · simp only [ha]
    simp only [Bool.false_eq_true, if_false]
    exact batchRun_inv mtype doc rs items db false h

@[simp] theorem newMovementRow_id (db : DB) (vid : Nat) (mtype : String) (qty : ℚ)
    (uom : String) (rc : Option Int) (doc rs : Option String) :
    (newMovementRow db vid mtype qty uom rc doc rs).id = db.next_movement_id := rfl

@[simp] theorem newMovementRow_variant_id (db : DB) (vid : Nat) (mtype : String) (qty : ℚ)
    (uom : String) (rc : Option Int) (doc rs : Option String) :
    (newMovementRow db vid mtype qty uom rc doc rs).variant_id = vid := rfl

@[simp] theorem newMovementRow_delta (db : DB) (vid : Nat) (mtype : String) (qty : ℚ)
    (uom : String) (rc : Option Int) (doc rs : Option String) :
    (newMovementRow db vid mtype qty uom rc doc rs).delta_qty_m = qty := rfl

@[simp] theorem newMovementRow_rolls (db : DB) (vid : Nat) (mtype : String) (qty : ℚ)
    (uom : String) (rc : Option Int) (doc rs : Option String) :
    (newMovementRow db vid mtype qty uom rc doc rs).roll_count = rc := rfl

@[simp] theorem newMovementRow_not_cancelled (db : DB) (vid : Nat) (mtype : String) (qty : ℚ)
    (uom : String) (rc : Option Int) (doc rs : Option String) :
    (newMovementRow db vid mtype qty uom rc doc rs).is_cancelled = false := rfl

/-! ### Cancellation lemmas -/

theorem flipCancelled_id (mid : Nat) (m : Movement) : (flipCancelled mid m).id = m.id := by
  unfold flipCancelled
  split <;> rfl

theorem findMovement_map_flip (ms : List Movement) (mid : Nat) :
    List.find? (fun m => m.id == mid) (ms.map (flipCancelled mid)) =
      (List.find? (fun m => m.id == mid) ms).map (flipCancelled mid) := by
  have hp : ((fun m : Movement => m.id == mid) ∘ flipCancelled mid)
      = (fun m : Movement => m.id == mid) := by
    funext m
    simp [Function.comp, flipCancelled_id]
  rw [List.find?_map, hp]

theorem cancel_notFound_of_missing (db : DB) (mid : Nat) (rs : Option String)
    (hm : findMovement db mid = none) :
    cancel_movement db mid rs = (db, CancelOut.notFound) := by
  unfold cancel_movement
  rw [hm]

theorem cancel_already_of_found (db : DB) (mid : Nat) (rs : Option String) (m : Movement)
    (hm : findMovement db mid = some m) (hc : m.is_cancelled = true) :
    cancel_movement db mid rs = (db, CancelOut.alreadyCancelled) := by
  unfold cancel_movement
  rw [hm]
  simp [hc]

theorem cancel_active_of_found (db : DB) (mid : Nat) (rs : Option String) (m : Movement)
    (hm : findMovement db mid = some m) (hc : m.is_cancelled = false) :
    cancel_movement db mid rs =
      ({ db with
          movements := db.movements.map (flipCancelled mid),
          balances := upsertBalance db.balances m.variant_id (-(m.delta_qty_m))
            (m.roll_count.map (fun r => -r)) },
        CancelOut.ok (-(m.delta_qty_m))
          (balM { db with
              movements := db.movements.map (flipCancelled mid),
              balances := upsertBalance db.balances m.variant_id (-(m.delta_qty_m))
                (m.roll_count.map (fun r => -r)) } m.variant_id)) := by
  unfold cancel_movement
  rw [hm]
  simp [hc]

theorem cancel_movement_ok_elim (db : DB) (mid : Nat) (rs : Option String) (db1 : DB) (q a : ℚ)
    (h : cancel_movement db mid rs = (db1, CancelOut.ok q a)) :
    ∃ m, findMovement db mid = some m ∧ m.is_cancelled = false ∧ q = -(m.delta_qty_m) ∧
      db1 = { db with
        movements := db.movements.map (flipCancelled mid),
        balances := upsertBalance db.balances m.variant_id (-(m.delta_qty_m))
          (m.roll_count.map (fun r => -r)) } := by
  cases hm : findMovement db mid with
  | none =>
    rw [cancel_notFound_of_missing db mid rs hm] at h
    simp at h
  | some m =>
    by_cases hc : m.is_cancelled = true
    · rw [cancel_already_of_found db mid rs m hm hc] at h
      simp at h
    · have hc' : m.is_cancelled = false := by revert hc; cases m.is_cancelled <;> simp
      rw [cancel_active_of_found db mid rs m hm hc'] at h
      simp only [Prod.mk.injEq, CancelOut.ok.injEq] at h
      exact ⟨m, rfl, hc', h.2.1.symm, h.1.symm⟩

theorem findMovement_record_self (db : DB) (vid : Nat) (mtype : String) (qty : ℚ) (uom : String)
    (rc : Option Int) (doc rs : Option String) (hf : movementsFresh db = true) :
    findMovement (recordMovement db vid mtype qty uom rc doc rs) db.next_movement_id =
      some (newMovementRow db vid mtype qty uom rc doc rs) := by
  show List.find? _ (db.movements ++ [_]) = _
  rw [List.find?_append]
  have h1 : List.find? (fun m => m.id == db.next_movement_id) db.movements = none := by
    rw [List.find?_eq_none]
    intro m hm
    have h2 := (List.all_eq_true.mp hf) m hm
    simp only [decide_eq_true_eq] at h2
    simp only [beq_iff_eq]
    omega
  rw [h1]
  simp [newMovementRow]

/-! ### Batch accounting -/

/-- The number of batch entries whose fabric/color pair resolves to no
variant (they are reported in `failed`). -/
def missCount (db : DB) (items : List BatchEntry) : Nat :=
  (items.filter (fun e => (findVariantByCodes db e.fabric_code e.color_code).isNone)).length

/-- The summed quantity of the batch entries that resolve to variant `v`. -/
def succQtySum (db : DB) (items : List BatchEntry) (v : Nat) : ℚ :=
  ((items.filter (fun e =>
    findVariantByCodes db e.fabric_code e.color_code == some v)).map BatchEntry.qty).sum

theorem missCount_cons (db : DB) (e : BatchEntry) (rest : List BatchEntry) :
    missCount db (e :: rest) =
      (if (findVariantByCodes db e.fabric_code e.color_code).isNone = true then 1 else 0)
        + missCount db rest := by
  unfold missCount
  rw [List.filter_cons]
  split
  · simp [Nat.add_comm]
  · simp

theorem succQtySum_cons (db : DB) (e : BatchEntry) (rest : List BatchEntry) (v : Nat) :
    succQtySum db (e :: rest) v =
      (if (findVariantByCodes db e.fabric_code e.color_code == some v) = true then e.qty else 0)
        + succQtySum db rest v := by
  unfold succQtySum
  rw [List.filter_cons]
  split
  · simp
  · simp

theorem batchRun_ok (mtype : String) (doc rs : Option String) (hT : validMovementType mtype = true)
    (items : List BatchEntry) :
    ∀ work : DB,
      (∀ e ∈ items,
        findVariantByCodes work e.fabric_code e.color_code = none ∨ validUom e.uom = true) →
      (batchRun mtype doc rs items work false).aborted = false ∧
      (batchRun mtype doc rs items work false).processed.length + missCount work items
        = items.length ∧
      (batchRun mtype doc rs items work false).failed.length = missCount work items ∧
      (∀ it ∈ (batchRun mtype doc rs items work false).processed,
        it.new_balance = it.previous_balance + it.qty) ∧
      (∀ v, balM (batchRun mtype doc rs items work false).dbOut v
        = balM work v + succQtySum work items v) := by
  induction items with
  | nil =>
    intro work hE
    refine ⟨rfl, rfl, rfl, ?_, ?_⟩
    · intro it hit
      simp [batchRun] at hit
    · intro v
      show balM work v = balM work v + succQtySum work [] v
      simp [succQtySum]
  | cons e rest ih =>
    intro work hE
    have hEr : ∀ x ∈ rest,
        findVariantByCodes work x.fabric_code x.color_code = none ∨ validUom x.uom = true :=
      fun x hx => hE x (List.mem_cons_of_mem e hx)
    cases hfv : findVariantByCodes work e.fabric_code e.color_code with
    | none =>
      obtain ⟨ha, hlen, hflen, hproc, hbal⟩ := ih work hEr
      have hstep : batchRun mtype doc rs (e :: rest) work false
          = { batchRun mtype doc rs rest work false with
              failed := batchFailItem e "variant not found for fabric"
                :: (batchRun mtype doc rs rest work false).failed } := by
        rw [batchRun]
        rw [hfv]
        rfl
      rw [hstep]
      refine ⟨ha, ?_, ?_, hproc, ?_⟩
      · show (batchRun mtype doc rs rest work false).processed.length
          + missCount work (e :: rest) = rest.length + 1
        rw [missCount_cons, hfv]
        simp only [Option.isNone_none, if_true]
        omega
      · show ((batchRun mtype doc rs rest work false).failed.length + 1)
          = missCount work (e :: rest)
        rw [missCount_cons, hfv]
        simp only [Option.isNone_none, if_true]
        omega
      · intro v
        rw [succQtySum_cons, hfv]
        simp only [show ((none : Option Nat) == some v) = false from rfl, Bool.false_eq_true,
          if_false, zero_add]
        exact hbal v
    | some vid =>
      have hUom : validUom e.uom = true := by
        rcases hE e (List.mem_cons_self e rest) with h | h
        · rw [hfv] at h
          cases h
        · exact h
      have hck : (validMovementType mtype && validUom e.uom) = true := by
        rw [hT, hUom]
        rfl
      have hEr2 : ∀ x ∈ rest,
          findVariantByCodes (recordMovement work vid mtype e.qty e.uom e.roll_count doc rs)
            x.fabric_code x.color_code = none ∨ validUom x.uom = true := hEr
      obtain ⟨ha, hlen, hflen, hproc, hbal⟩ :=
        ih (recordMovement work vid mtype e.qty e.uom e.roll_count doc rs) hEr2
      have hstep : batchRun mtype doc rs (e :: rest) work false
          = { batchRun mtype doc rs rest
                (recordMovement work vid mtype e.qty e.uom e.roll_count doc rs) false with
              processed :=
                batchProcItem e (balM work vid)
                  (balM (recordMovement work vid mtype e.qty e.uom e.roll_count doc rs) vid)
                  work.next_movement_id
                :: (batchRun mtype doc rs rest
                    (recordMovement work vid mtype e.qty e.uom e.roll_count doc rs)
                    false).processed } := by
        rw [batchRun]
        rw [hfv]
        simp only [Bool.false_eq_true, if_false]
        rw [if_pos hck]
      rw [hstep]
      have hmiss : missCount work (e :: rest)
          = missCount (recordMovement work vid mtype e.qty e.uom e.roll_count doc rs) rest := by
        rw [missCount_cons, hfv]
        simp only [Option.isNone_some, Bool.false_eq_true, if_false, Nat.zero_add]
        rfl
      refine ⟨ha, ?_, ?_, ?_, ?_⟩
      · show (batchRun mtype doc rs rest
            (recordMovement work vid mtype e.qty e.uom e.roll_count doc rs) false).processed.length
            + 1 + missCount work (e :: rest) = rest.length + 1
        rw [hmiss]
        omega
      · rw [hmiss]
        exact hflen
      · intro it hit
        rcases List.mem_cons.mp hit with h | h
        · subst h
          show balM (recordMovement work vid mtype e.qty e.uom e.roll_count doc rs) vid
            = balM work vid + e.qty
          exact balM_record_self work vid mtype e.qty e.uom e.roll_count doc rs
        · exact hproc it h
      · intro v
        rw [succQtySum_cons, hfv]
        have hsum : succQtySum work rest v
            = succQtySum (recordMovement work vid mtype e.qty e.uom e.roll_count doc rs) rest v :=
          rfl
        by_cases hv : v = vid
        · subst hv
          rw [if_pos (show ((some v : Option Nat) == some v) = true by simp)]
          rw [hbal v, balM_record_self work v mtype e.qty e.uom e.roll_count doc rs, hsum]
          ring
        · have hne : ((some vid : Option Nat) == some v) = false := by
            simp [Ne.symm hv]
          simp only [hne, Bool.false_eq_true, if_false, zero_add]
          rw [hbal v, balM_record_ne work vid v mtype e.qty e.uom e.roll_count doc rs hv, hsum]

/-! ### Concrete fixtures for witnesses and counterexamples -/

/-- One fabric "F" (id 1) with one variant "A" (id 1), empty ledger. -/
def dbOne : DB :=
  { fabrics := [{ id := 1, fabric_code := "F" }],
    variants := [{ id := 1, fabric_id := 1, color_code := "A" }],
    movements := [], balances := [],
    next_variant_id := 2, next_movement_id := 1, clock := 0 }

/-- State of `dbOne` after a successful receipt of 50 m / 2 rolls (movement id 1). -/
def dbAfterReceipt : DB := (create_movement dbOne 1 "RECEIPT" 50 "m" (some 2) none none).1

/-- State of `dbAfterReceipt` after movement 1 has been cancelled once. -/
def dbCancelledOnce : DB := (cancel_movement dbAfterReceipt 1 none).1

/-- The cancelled movement row stored in `dbCancelledOnce`. -/
def cancelledRow : Movement :=
  { id := 1, variant_id := 1, movement_type := "RECEIPT", delta_qty_m := 50,
    original_qty := 50, original_uom := "m", roll_count := some 2,
    document_id := none, reason := none, is_cancelled := true, ts := 0 }

/-! ### Claim theorems -/

/-- C1: for every variant and after any sequence of `create_movement` and
`create_movements_batch` operations, the stored `on_hand_m` balance equals
the sum of `delta_qty_m` over that variant's non-cancelled movements,
a variant with no balance row counting as the empty sum. -/
theorem c1_balance_invariant (db : DB) (ops : List Op) (h : invariantM db) :
    invariantM (applyOps db ops) := by
  induction ops generalizing db with
  | nil => exact h
  | cons op rest ih =>
    rw [applyOps]
    refine ih (applyOp db op) ?_
    cases op with
    | mv vid mtype qty uom rc doc rs => exact invariantM_create db vid mtype qty uom rc doc rs h
    | mvBatch items mtype doc rs => exact invariantM_batch db items mtype doc rs h

theorem c1_balance_invariant_witness :
    invariantM dbOne ∧
      invariantM (applyOps dbOne
        [Op.mv 1 "RECEIPT" 100 "m" none none none,
         Op.mvBatch
           [{ fabric_code := "F", color_code := "A", qty := 5, uom := "m", roll_count := none }]
           "ISSUE" none none]) :=
  ⟨fun _ => rfl, c1_balance_invariant dbOne _ (fun _ => rfl)⟩

/-- C5: `create_movement` on a `variant_id` that references no existing
variant returns the NotFound result (`None`) rather than raising, with no
side effects: the returned state is exactly the input state, so no
movement row is inserted and no balance row is created or changed. -/
theorem c5_missing_variant_no_effect (db : DB) (vid : Nat) (mtype : String) (qty : ℚ)
    (uom : String) (rc : Option Int) (doc rs : Option String)
    (h : variantExists db vid = false) :
    create_movement db vid mtype qty uom rc doc rs = (db, CMOut.notFound) := by
  rw [create_movement, h]
  simp

theorem c5_missing_variant_no_effect_witness :
    variantExists dbOne 99 = false ∧
      create_movement dbOne 99 "RECEIPT" 5 "m" none none none = (dbOne, CMOut.notFound) :=
  ⟨by decide, c5_missing_variant_no_effect dbOne 99 "RECEIPT" 5 "m" none none none (by decide)⟩

/-- C6: on every successful `create_movement`, a missing balance row is
created as `(on_hand_m = qty, on_hand_rolls = roll_count or 0)`, and an
existing row gets `on_hand_m` incremented by `qty` while `on_hand_rolls`
is incremented by `roll_count` only when one was supplied and left
unchanged otherwise. -/
theorem c6_upsert_semantics (db : DB) (vid : Nat) (mtype : String) (qty : ℚ) (uom : String)
    (rc : Option Int) (doc rs : Option String) (db2 : DB) (mid : Nat) (d a : ℚ)
    (h : create_movement db vid mtype qty uom rc doc rs = (db2, CMOut.ok mid d a)) :
    (lookupBalance db.balances vid = none →
      lookupBalance db2.balances vid = some { on_hand_m := qty, on_hand_rolls := rollInit rc }) ∧
    (∀ b, lookupBalance db.balances vid = some b →
      lookupBalance db2.balances vid =
        some { on_hand_m := b.on_hand_m + qty, on_hand_rolls := rollAdd b.on_hand_rolls rc }) := by
  obtain ⟨hdb, -, -, -, -⟩ := create_movement_ok_elim db vid mtype qty uom rc doc rs db2 mid d a h
  subst hdb
  have hb : (recordMovement db vid mtype qty uom rc doc rs).balances
      = upsertBalance db.balances vid qty rc := rfl
  constructor
  · intro hnone
    rw [hb, lookupBalance_upsert_self, hnone]
  · intro b hsome
    rw [hb, lookupBalance_upsert_self, hsome]

theorem c6_upsert_semantics_witness :
    lookupBalance dbOne.balances 1 = none ∧
      lookupBalance (create_movement dbOne 1 "RECEIPT" 5 "m" (some 2) none none).1.balances 1
        = some { on_hand_m := 5, on_hand_rolls := rollInit (some 2) } :=
  ⟨rfl, (c6_upsert_semantics dbOne 1 "RECEIPT" 5 "m" (some 2) none none
      (create_movement dbOne 1 "RECEIPT" 5 "m" (some 2) none none).1 1 5 5 (by decide)).1 rfl⟩

/-- C4: `cancel_movement` on an existing but already cancelled movement
fails with AlreadyCancelled and changes nothing; on a missing movement id
it fails with NotFound; hence cancelling a movement twice changes the
state (and so the balance) exactly once in total: the second call returns
the first call's state unchanged. -/
theorem c4_cancel_idempotent :
    (∀ (db : DB) (mid : Nat) (rs : Option String) (m : Movement),
      findMovement db mid = some m → m.is_cancelled = true →
      cancel_movement db mid rs = (db, CancelOut.alreadyCancelled)) ∧
    (∀ (db : DB) (mid : Nat) (rs : Option String),
      findMovement db mid = none →
      cancel_movement db mid rs = (db, CancelOut.notFound)) ∧
    (∀ (db : DB) (mid : Nat) (rs1 rs2 : Option String) (db1 : DB) (q a : ℚ),
      cancel_movement db mid rs1 = (db1, CancelOut.ok q a) →
      cancel_movement db1 mid rs2 = (db1, CancelOut.alreadyCancelled)) := by
  refine ⟨cancel_already_of_found, cancel_notFound_of_missing, ?_⟩
  intro db mid rs1 rs2 db1 q a h
  obtain ⟨m, hm, hnc, -, hdb1⟩ := cancel_movement_ok_elim db mid rs1 db1 q a h
  have hm' : List.find? (fun x => x.id == mid) db.movements = some m := hm
  have hpm : (m.id == mid) = true := by
    have h2 := List.find?_some hm'
    exact h2
  have hfind : findMovement db1 mid = some (flipCancelled mid m) := by
    rw [hdb1]
    show List.find? (fun x => x.id == mid) (db.movements.map (flipCancelled mid))
      = some (flipCancelled mid m)
    rw [findMovement_map_flip, hm']
    rfl
  have hflip : (flipCancelled mid m).is_cancelled = true := by
    unfold flipCancelled
    rw [if_pos hpm]
  exact cancel_already_of_found db1 mid rs2 (flipCancelled mid m) hfind hflip

theorem c4_cancel_idempotent_witness :
    cancel_movement dbCancelledOnce 1 none = (dbCancelledOnce, CancelOut.alreadyCancelled) ∧
    cancel_movement dbCancelledOnce 1 (some "again") =
      (dbCancelledOnce, CancelOut.alreadyCancelled) ∧
    cancel_movement dbOne 7 none = (dbOne, CancelOut.notFound) :=
  ⟨c4_cancel_idempotent.2.2 dbAfterReceipt 1 none none dbCancelledOnce (-50)
      (balM dbCancelledOnce 1) rfl,
   c4_cancel_idempotent.1 dbCancelledOnce 1 (some "again") cancelledRow (by decide) (by decide),
   c4_cancel_idempotent.2.1 dbOne 7 none (by decide)⟩

/-- C8: creating a movement of quantity q for a variant and then cancelling
the returned movement id restores that variant's meter and roll balances
to their exact pre-movement values; the cancellation reports reversed
quantity −q, flips the movement's `is_cancelled` flag, and inserts no new
movement row. -/
theorem c8_round_trip (db : DB) (vid : Nat) (mtype : String) (qty : ℚ) (uom : String)
    (rc : Option Int) (doc rs creason : Option String) (db1 : DB) (mid : Nat) (d a : ℚ)
    (hf : movementsFresh db = true)
    (hc : create_movement db vid mtype qty uom rc doc rs = (db1, CMOut.ok mid d a)) :
    (cancel_movement db1 mid creason).2 = CancelOut.ok (-d) (balM db vid) ∧
    (∀ v, balM (cancel_movement db1 mid creason).1 v = balM db v ∧
      balRolls (cancel_movement db1 mid creason).1 v = balRolls db v) ∧
    (cancel_movement db1 mid creason).1.movements.length = db1.movements.length ∧
    (findMovement (cancel_movement db1 mid creason).1 mid).map Movement.is_cancelled
      = some true := by
  obtain ⟨hdb1, hmid, hd, -, -⟩ :=
    create_movement_ok_elim db vid mtype qty uom rc doc rs db1 mid d a hc
  subst hdb1
  subst hmid
  rw [hd]
  have hfind := findMovement_record_self db vid mtype qty uom rc doc rs hf
  have hstep := cancel_active_of_found (recordMovement db vid mtype qty uom rc doc rs)
    db.next_movement_id creason (newMovementRow db vid mtype qty uom rc doc rs) hfind rfl
  simp only [newMovementRow_variant_id, newMovementRow_delta, newMovementRow_rolls] at hstep
  have hbalM : ∀ v,
      balMOf (upsertBalance (recordMovement db vid mtype qty uom rc doc rs).balances vid
        (-qty) (rc.map (fun r => -r))) v = balM db v := by
    intro v
    by_cases hv : v = vid
    · subst hv
      rw [balMOf_upsert_self]
      show balM (recordMovement db v mtype qty uom rc doc rs) v + (-qty) = balM db v
      rw [balM_record_self]
      ring
    · rw [balMOf_upsert_ne _ _ _ _ _ hv]
      show balM (recordMovement db vid mtype qty uom rc doc rs) v = balM db v
      exact balM_record_ne db vid v mtype qty uom rc doc rs hv
  have hbalR : ∀ v,
      balROf (upsertBalance (recordMovement db vid mtype qty uom rc doc rs).balances vid
        (-qty) (rc.map (fun r => -r))) v = balRolls db v := by
    intro v
    by_cases hv : v = vid
    · subst hv
      rw [balROf_upsert_self]
      show rollAdd (balRolls (recordMovement db v mtype qty uom rc doc rs) v)
        (rc.map (fun r => -r)) = balRolls db v
      rw [balRolls_record_self]
      exact rollAdd_map_neg (balRolls db v) rc
    · rw [balROf_upsert_ne _ _ _ _ _ hv]
      show balRolls (recordMovement db vid mtype qty uom rc doc rs) v = balRolls db v
      exact balRolls_record_ne db vid v mtype qty uom rc doc rs hv
  refine ⟨?_, ?_, ?_, ?_⟩
  · rw [hstep]
    show CancelOut.ok (-qty) _ = CancelOut.ok (-qty) (balM db vid)
    have := hbalM vid
    rw [CancelOut.ok.injEq]
    exact ⟨rfl, this⟩
  · intro v
    rw [hstep]
    exact ⟨hbalM v, hbalR v⟩
  · rw [hstep]
    exact List.length_map _ _
  · rw [hstep]
    show (List.find? (fun x => x.id == db.next_movement_id)
        ((recordMovement db vid mtype qty uom rc doc rs).movements.map
          (flipCancelled db.next_movement_id))).map Movement.is_cancelled = some true
    rw [findMovement_map_flip]
    rw [show List.find? (fun m => m.id == db.next_movement_id)
        (recordMovement db vid mtype qty uom rc doc rs).movements
      = some (newMovementRow db vid mtype qty uom rc doc rs) from hfind]
    show some (flipCancelled db.next_movement_id
      (newMovementRow db vid mtype qty uom rc doc rs)).is_cancelled = some true
    unfold flipCancelled
    rw [if_pos (by simp)]

theorem c8_round_trip_witness :
    movementsFresh dbOne = true ∧
    (cancel_movement dbAfterReceipt 1 none).2 = CancelOut.ok (-50) (balM dbOne 1) ∧
    balM (cancel_movement dbAfterReceipt 1 none).1 1 = balM dbOne 1 ∧
    balRolls (cancel_movement dbAfterReceipt 1 none).1 1 = balRolls dbOne 1 :=
  have h := c8_round_trip dbOne 1 "RECEIPT" 50 "m" (some 2) none none none
    dbAfterReceipt 1 50 (balM dbAfterReceipt 1) (by decide) rfl
  ⟨by decide, h.1, (h.2.1 1).1, (h.2.1 1).2⟩

/-- C7: a batch of N entries in which exactly the entries with an
unresolvable fabric/color pair fail (the others being individually valid)
yields N−M `processed` and M `failed` records and never aborts as a whole;
each processed entry's `new_balance` equals its `previous_balance` plus
its quantity (the balances captured around that entry's own write), the
final balances reflect exactly the successful entries, and an empty batch
returns empty results, not an error. -/
theorem c7_batch_partial_failure (db : DB) (items : List BatchEntry) (mtype : String)
    (doc rs : Option String) (hT : validMovementType mtype = true)
    (hE : ∀ e ∈ items,
      findVariantByCodes db e.fabric_code e.color_code = none ∨ validUom e.uom = true) :
    (create_movements_batch db items mtype doc rs).2.1.length
      = items.length - missCount db items ∧
    (create_movements_batch db items mtype doc rs).2.1.length + missCount db items
      = items.length ∧
    (create_movements_batch db items mtype doc rs).2.2.length = missCount db items ∧
    (∀ it ∈ (create_movements_batch db items mtype doc rs).2.1,
      it.new_balance = it.previous_balance + it.qty) ∧
    (∀ v, balM (create_movements_batch db items mtype doc rs).1 v
      = balM db v + succQtySum db items v) ∧
    (items = [] → create_movements_batch db items mtype doc rs = (db, [], [])) := by
  obtain ⟨ha, hlen, hflen, hproc, hbal⟩ := batchRun_ok mtype doc rs hT items db hE
  have hcb : create_movements_batch db items mtype doc rs
      = ((batchRun mtype doc rs items db false).dbOut,
          (batchRun mtype doc rs items db false).processed,
          (batchRun mtype doc rs items db false).failed) := by
    simp only [create_movements_batch]
    rw [ha]
    simp
  rw [hcb]
  dsimp only
  refine ⟨?_, hlen, hflen, hproc, hbal, ?_⟩
  · omega
  · intro h
    subst h
    rfl

/-- The Scenario C batch: entries 1 and 3 resolve, entry 2 names a color
with no matching variant. -/
def entriesC7 : List BatchEntry :=
  [{ fabric_code := "F", color_code := "A", qty := 5, uom := "m", roll_count := none },
   { fabric_code := "F", color_code := "Z", qty := 4, uom := "m", roll_count := none },
   { fabric_code := "F", color_code := "A", qty := 2, uom := "m", roll_count := none }]

theorem c7_batch_partial_failure_witness :
    (create_movements_batch dbOne entriesC7 "RECEIPT" none none).2.1.length
        = entriesC7.length - missCount dbOne entriesC7 ∧
    (create_movements_batch dbOne entriesC7 "RECEIPT" none none).2.2.length
        = missCount dbOne entriesC7 ∧
    create_movements_batch dbOne [] "RECEIPT" none none = (dbOne, [], []) :=
  have h := c7_batch_partial_failure dbOne entriesC7 "RECEIPT" none none (by decide) (by decide)
  have h0 := c7_batch_partial_failure dbOne [] "RECEIPT" none none (by decide) (by decide)
  ⟨h.1, h.2.2.1, h0.2.2.2.2.2 rfl⟩

/-- A batch whose middle entry violates the `original_uom` CHECK
constraint, raising a database error inside the shared transaction. -/
def entriesC2 : List BatchEntry :=
  [{ fabric_code := "F", color_code := "A", qty := 5, uom := "m", roll_count := none },
   { fabric_code := "F", color_code := "A", qty := 3, uom := "yards", roll_count := none },
   { fabric_code := "F", color_code := "A", qty := 2, uom := "m", roll_count := none }]

/-- C2, evaluated at the failing input: `create_movements_batch` has no
per-entry savepoint — one transaction wraps the whole batch.  On the batch
[valid +5 m entry, entry with uom "yards" (CHECK violation), valid +2 m
entry] the first entry is reported in `processed`, but the second entry's
statement error aborts the shared transaction, the third entry then fails
with "current transaction is aborted", and the final commit acts as a
rollback: the committed state has no movement row and no balance row, so
the earlier successful entry's insert and increment are not committed. -/
theorem c2_no_per_entry_savepoint :
    (create_movements_batch dbOne entriesC2 "RECEIPT" none none).2.1.length = 1 ∧
    (create_movements_batch dbOne entriesC2 "RECEIPT" none none).2.2.length = 2 ∧
    (create_movements_batch dbOne entriesC2 "RECEIPT" none none).1.movements = [] ∧
    (create_movements_batch dbOne entriesC2 "RECEIPT" none none).1.balances = [] := by
  decide

/-- One fabric "F" (id 1) that already has a variant with color "B". -/
def dbFab : DB :=
  { fabrics := [{ id := 1, fabric_code := "F" }],
    variants := [{ id := 1, fabric_id := 1, color_code := "B" }],
    movements := [], balances := [],
    next_variant_id := 2, next_movement_id := 1, clock := 0 }

/-- A creation batch: "A" is new, "B" collides with the existing variant. -/
def specsC3 : List VariantSpec :=
  [{ color_code := "A", finish := "Standard" },
   { color_code := "B", finish := "Standard" }]

/-- C3, evaluated at the failing input: when entry "B" of
`create_variants_batch` hits the duplicate-key conflict, the
`conn.rollback()` in its `except` clause rolls back the whole open
transaction and with it sibling "A"'s insert made earlier in the same
call; "A" is still reported in `created`, yet the committed state contains
no variant "A" — the sibling created before the failing entry is lost. -/
theorem c3_rollback_discards_siblings :
    (create_variants_batch dbFab "F" specsC3).1 = some 1 ∧
    (create_variants_batch dbFab "F" specsC3).2.2.1
      = [{ fabric_code := "F", color_code := "A", finish := "Standard" }] ∧
    (create_variants_batch dbFab "F" specsC3).2.2.2.length = 1 ∧
    (create_variants_batch dbFab "F" specsC3).2.1.variants.any
      (fun v => v.color_code == "A") = false := by
  decide

/-- C9: the history query's date filter is inclusive at the lower bound
and covers the whole day named by the upper bound, so a single-day filter
[day, day] selects exactly the movements with day ≤ ts < day + oneDay;
with the route's default `include_cancelled = false`, cancelled movements
are excluded; the reported total is the number of matching rows. -/
theorem c9_single_day_filter (db : DB) (day : Int) (m : Movement) (limit offset : Nat) :
    (m ∈ filterMovements db
        { defaultFilters with date_from := some day, date_to := some day } ↔
      m ∈ db.movements ∧ day ≤ m.ts ∧ m.ts < day + oneDay ∧ m.is_cancelled = false) ∧
    (search_movements db { defaultFilters with date_from := some day, date_to := some day }
        limit offset).2
      = (filterMovements db
          { defaultFilters with date_from := some day, date_to := some day }).length := by
  constructor
  · rw [filterMovements, List.mem_filter]
    simp only [matchesFilters, defaultFilters, Bool.and_eq_true, Bool.false_or,
      decide_eq_true_eq, Bool.not_eq_true']
    tauto
  · rfl

/-! ### ISSUE entry points never increase a balance -/

theorem create_movement_fst_cases (db : DB) (vid : Nat) (mtype : String) (qty : ℚ)
    (uom : String) (rc : Option Int) (doc rs : Option String) :
    (create_movement db vid mtype qty uom rc doc rs).1 = db ∨
    (create_movement db vid mtype qty uom rc doc rs).1
      = recordMovement db vid mtype qty uom rc doc rs := by
  rw [create_movement]
  by_cases h1 : variantExists db vid
  · by_cases h2 : (validMovementType mtype && validUom uom) = true
    · rw [if_pos h1, if_pos h2]
      right
      rfl
    · rw [if_pos h1, if_neg h2]
      left
      rfl
  · rw [if_neg h1]
    left
    rfl

theorem balM_record_le (db : DB) (vid : Nat) (mtype : String) (qty : ℚ) (uom : String)
    (rc : Option Int) (doc rs : Option String) (hq : qty ≤ 0)
    (hr : ∀ r, rc = some r → r ≤ 0) (v : Nat) :
    balM (recordMovement db vid mtype qty uom rc doc rs) v ≤ balM db v ∧
    balRolls (recordMovement db vid mtype qty uom rc doc rs) v ≤ balRolls db v := by
  by_cases hv : v = vid
  · subst hv
    rw [balM_record_self db v mtype qty uom rc doc rs,
      balRolls_record_self db v mtype qty uom rc doc rs]
    exact ⟨by linarith, rollAdd_nonpos (balRolls db v) rc hr⟩
  · rw [balM_record_ne db vid v mtype qty uom rc doc rs hv,
      balRolls_record_ne db vid v mtype qty uom rc doc rs hv]
    exact ⟨le_refl _, le_refl _⟩

theorem balM_create_le (db : DB) (vid : Nat) (mtype : String) (qty : ℚ) (uom : String)
    (rc : Option Int) (doc rs : Option String) (hq : qty ≤ 0)
    (hr : ∀ r, rc = some r → r ≤ 0) (v : Nat) :
    balM (create_movement db vid mtype qty uom rc doc rs).1 v ≤ balM db v ∧
    balRolls (create_movement db vid mtype qty uom rc doc rs).1 v ≤ balRolls db v := by
  rcases create_movement_fst_cases db vid mtype qty uom rc doc rs with h | h
  · rw [h]
    exact ⟨le_refl _, le_refl _⟩
  · rw [h]
    exact balM_record_le db vid mtype qty uom rc doc rs hq hr v

theorem batchRun_cons_some_ok (mtype : String) (doc rs : Option String) (e : BatchEntry)
    (rest : List BatchEntry) (work : DB) (vid : Nat)
    (hfv : findVariantByCodes work e.fabric_code e.color_code = some vid)
    (hck : (validMovementType mtype && validUom e.uom) = true) :
    batchRun mtype doc rs (e :: rest) work false
      = { batchRun mtype doc rs rest
            (recordMovement work vid mtype e.qty e.uom e.roll_count doc rs) false with
          processed :=
            batchProcItem e (balM work vid)
              (balM (recordMovement work vid mtype e.qty e.uom e.roll_count doc rs) vid)
              work.next_movement_id
            :: (batchRun mtype doc rs rest
                (recordMovement work vid mtype e.qty e.uom e.roll_count doc rs)
                false).processed } := by
  rw [batchRun]
  rw [hfv]
  simp only [Bool.false_eq_true, if_false]
  rw [if_pos hck]

theorem batchRun_cons_some_bad (mtype : String) (doc rs : Option String) (e : BatchEntry)
    (rest : List BatchEntry) (work : DB) (vid : Nat)
    (hfv : findVariantByCodes work e.fabric_code e.color_code = some vid)
    (hck : ¬ (validMovementType mtype && validUom e.uom) = true) :
    batchRun mtype doc rs (e :: rest) work false
      = { batchRun mtype doc rs rest work true with
          failed := batchFailItem e "check constraint violated"
            :: (batchRun mtype doc rs rest work true).failed } := by
  rw [batchRun]
  rw [hfv]
  simp only [Bool.false_eq_true, if_false]
  rw [if_neg hck]

theorem batchRun_le (mtype : String) (doc rs : Option String) (items : List BatchEntry) :
    ∀ (work : DB) (ab : Bool),
      (∀ e ∈ items, e.qty ≤ 0 ∧ ∀ r, e.roll_count = some r → r ≤ 0) →
      ∀ v, balM (batchRun mtype doc rs items work ab).dbOut v ≤ balM work v ∧
        balRolls (batchRun mtype doc rs items work ab).dbOut v ≤ balRolls work v := by
  induction items with
  | nil =>
    intro work ab hE v
    exact ⟨le_refl _, le_refl _⟩
  | cons e rest ih =>
    intro work ab hE v
    have hEr : ∀ x ∈ rest, x.qty ≤ 0 ∧ ∀ r, x.roll_count = some r → r ≤ 0 :=
      fun x hx => hE x (List.mem_cons_of_mem e hx)
    by_cases hab : ab = true
    · subst hab
      exact ih work true hEr v
    · have hab' : ab = false := by
        revert hab
        cases ab <;> simp
      subst hab'
      cases hfv : findVariantByCodes work e.fabric_code e.color_code with
      | none =>
        have hstep : batchRun mtype doc rs (e :: rest) work false
            = { batchRun mtype doc rs rest work false with
                failed := batchFailItem e "variant not found for fabric"
                  :: (batchRun mtype doc rs rest work false).failed } := by
          rw [batchRun]
          rw [hfv]
          rfl
        rw [hstep]
        exact ih work false hEr v
      | some vid =>
        by_cases hck : (validMovementType mtype && validUom e.uom) = true
        · rw [batchRun_cons_some_ok mtype doc rs e rest work vid hfv hck]
          obtain ⟨hq, hr⟩ := hE e (List.mem_cons_self e rest)
          have h1 := balM_record_le work vid mtype e.qty e.uom e.roll_count doc rs hq hr v
          have h2 := ih (recordMovement work vid mtype e.qty e.uom e.roll_count doc rs)
            false hEr v
          exact ⟨le_trans h2.1 h1.1, le_trans h2.2 h1.2⟩
        · rw [batchRun_cons_some_bad mtype doc rs e rest work vid hfv hck]
          exact ih work true hEr v

theorem balM_batch_le (db : DB) (items : List BatchEntry) (mtype : String)
    (doc rs : Option String)
    (hE : ∀ e ∈ items, e.qty ≤ 0 ∧ ∀ r, e.roll_count = some r → r ≤ 0) (v : Nat) :
    balM (create_movements_batch db items mtype doc rs).1 v ≤ balM db v ∧
    balRolls (create_movements_batch db items mtype doc rs).1 v ≤ balRolls db v := by
  simp only [create_movements_batch]
  by_cases ha : (batchRun mtype doc rs items db false).aborted = true
  · rw [if_pos ha]
    exact ⟨le_refl _, le_refl _⟩
  · rw [if_neg ha]
    exact batchRun_le mtype doc rs items db false hE v

theorem create_movement_snd_ok (db : DB) (vid : Nat) (mtype : String) (qty : ℚ) (uom : String)
    (rc : Option Int) (doc rs : Option String) (mid : Nat) (d a : ℚ)
    (h : (create_movement db vid mtype qty uom rc doc rs).2 = CMOut.ok mid d a) :
    d = qty := by
  have h2 : create_movement db vid mtype qty uom rc doc rs
      = ((create_movement db vid mtype qty uom rc doc rs).1, CMOut.ok mid d a) := by
    rw [← h]
  exact (create_movement_ok_elim db vid mtype qty uom rc doc rs _ mid d a h2).2.2.1

theorem cmbc_snd_ok (db : DB) (fc cc mtype : String) (qty : ℚ) (uom : String)
    (rc : Option Int) (doc rs : Option String) (mid : Nat) (d a : ℚ)
    (h : (create_movement_by_codes db fc cc mtype qty uom rc doc rs).2 = CMOut.ok mid d a) :
    d = qty := by
  rw [create_movement_by_codes] at h
  cases hfv : findVariantByCodes db fc cc with
  | none =>
    rw [hfv] at h
    exact CMOut.noConfusion h
  | some vid =>
    rw [hfv] at h
    exact create_movement_snd_ok db vid mtype qty uom rc doc rs mid d a h

theorem mapped_roll_nonpos (rc : Option Int) :
    ∀ x, rc.map (fun r => -(|r|)) = some x → x ≤ 0 := by
  cases rc with
  | none =>
    intro x hx
    simp at hx
  | some r =>
    intro x hx
    have hx2 : (some (-(|r|)) : Option Int) = some x := hx
    injection hx2 with hx2
    subst hx2
    exact neg_nonpos.mpr (abs_nonneg r)

/-- C10 (implicit): every ISSUE entry point — the `/movements/issue` route,
the `/movements/issue/batch` route and the MCP `issue_stock` tool — passes
`delta_qty_m = -abs(qty)` (and `roll_count = -abs(roll_count)` when one is
supplied), whatever the sign of the caller's quantity; consequently no
ISSUE operation can ever increase any variant's meter or roll balance. -/
theorem c10_issue_nonincreasing :
    (∀ (db : DB) (fc cc : String) (q : ℚ) (uom : String) (rc : Option Int)
        (doc rs : Option String) (v : Nat),
      balM (issue db fc cc q uom rc doc rs).1 v ≤ balM db v ∧
      balRolls (issue db fc cc q uom rc doc rs).1 v ≤ balRolls db v) ∧
    (∀ (db : DB) (fc cc : String) (q : ℚ) (uom : String) (rc : Option Int)
        (doc rs : Option String) (mid : Nat) (d a : ℚ),
      (issue db fc cc q uom rc doc rs).2 = CMOut.ok mid d a → d = -(|q|)) ∧
    (∀ (db : DB) (vid : Nat) (q : ℚ) (uom : String) (rs : Option String) (v : Nat),
      balM (issue_stock db vid q uom rs).1 v ≤ balM db v ∧
      balRolls (issue_stock db vid q uom rs).1 v ≤ balRolls db v) ∧
    (∀ (db : DB) (vid : Nat) (q : ℚ) (uom : String) (rs : Option String) (mid : Nat) (d a : ℚ),
      (issue_stock db vid q uom rs).2 = CMOut.ok mid d a → d = -(|q|)) ∧
    (∀ (db : DB) (items : List BatchEntry) (doc rs : Option String) (v : Nat),
      balM (issue_batch db items doc rs).1 v ≤ balM db v ∧
      balRolls (issue_batch db items doc rs).1 v ≤ balRolls db v) := by
  have habs : ∀ q : ℚ, -(|q|) ≤ 0 := fun q => neg_nonpos.mpr (abs_nonneg q)
  refine ⟨?_, ?_, ?_, ?_, ?_⟩
  · intro db fc cc q uom rc doc rs v
    rw [issue, create_movement_by_codes]
    cases hfv : findVariantByCodes db fc cc with
    | none =>
      exact ⟨le_refl _, le_refl _⟩
    | some vid =>
      exact balM_create_le db vid "ISSUE" (-(|q|)) uom (rc.map (fun r => -(|r|))) doc rs
        (habs q) (mapped_roll_nonpos rc) v
  · intro db fc cc q uom rc doc rs mid d a h
    exact cmbc_snd_ok db fc cc "ISSUE" (-(|q|)) uom (rc.map (fun r => -(|r|))) doc rs mid d a h
  · intro db vid q uom rs v
    exact balM_create_le db vid "ISSUE" (-(|q|)) uom none none rs (habs q) (by simp) v
  · intro db vid q uom rs mid d a h
    exact create_movement_snd_ok db vid "ISSUE" (-(|q|)) uom none none rs mid d a h
  · intro db items doc rs v
    refine balM_batch_le db _ "ISSUE" doc rs ?_ v
    intro e he
    rcases List.mem_map.mp he with ⟨x, -, hx⟩
    subst hx
    exact ⟨habs x.qty, mapped_roll_nonpos x.roll_count⟩

/-- A one-entry batch for the issue-batch entry point. -/
def entriesIssue : List BatchEntry :=
  [{ fabric_code := "F", color_code := "A", qty := 3, uom := "m", roll_count := some 1 }]

theorem c10_issue_nonincreasing_witness :
    (balM (issue dbOne "F" "A" 7 "m" (some 2) none none).1 1 ≤ balM dbOne 1) ∧
    (balRolls (issue dbOne "F" "A" 7 "m" (some 2) none none).1 1 ≤ balRolls dbOne 1) ∧
    ((-(|(7 : ℚ)|)) = -(|(7 : ℚ)|)) ∧
    (balM (issue_stock dbOne 1 4 "m" none).1 1 ≤ balM dbOne 1) ∧
    ((-(|(4 : ℚ)|)) = -(|(4 : ℚ)|)) ∧
    (balM (issue_batch dbOne entriesIssue none none).1 1 ≤ balM dbOne 1) :=
  ⟨(c10_issue_nonincreasing.1 dbOne "F" "A" 7 "m" (some 2) none none 1).1,
   (c10_issue_nonincreasing.1 dbOne "F" "A" 7 "m" (some 2) none none 1).2,
   c10_issue_nonincreasing.2.1 dbOne "F" "A" 7 "m" (some 2) none none 1 (-(|(7 : ℚ)|))
     (balM (issue dbOne "F" "A" 7 "m" (some 2) none none).1 1) rfl,
   (c10_issue_nonincreasing.2.2.1 dbOne 1 4 "m" none 1).1,
   c10_issue_nonincreasing.2.2.2.1 dbOne 1 4 "m" none 1 (-(|(4 : ℚ)|))
     (balM (issue_stock dbOne 1 4 "m" none).1 1) rfl,
   (c10_issue_nonincreasing.2.2.2.2 dbOne entriesIssue none none 1).1⟩

end Traider
